import Mathlib

/- Verification of the streaming response normalization layer of the
EnglistLearn backend (qianwen.py, openai_client.py, main.py).

Python strings are sequences of code points; they are modelled as Lean
`String` (a structure over `List Char`), and each Python string operation
used by the code is embedded explicitly below (`pyStrip` for `str.strip`,
`pyStartsWith` for `str.startswith`, and so on). -/

namespace Education

/-! ## Python string primitives -/

/-- Whitespace characters recognised by Python `str.strip` / `\s`. -/
def isPySpace (c : Char) : Bool :=
  c = ' ' || c = '\t' || c = '\n' || c = '\r' || c = '\x0b' || c = '\x0c'

/-- Models Python `str.strip()`: drop leading and trailing whitespace. -/
def pyStrip (s : String) : String :=
  ⟨((s.data.dropWhile isPySpace).reverse.dropWhile isPySpace).reverse⟩

/-- Models Python `str.lower()` (per-character; agrees with Python on ASCII,
which covers every string the finish-reason table compares against). -/
def pyLower (s : String) : String :=
  ⟨s.data.map Char.toLower⟩

/-- Models Python `t.startswith(p)`. -/
def pyStartsWith (t p : String) : Bool :=
  p.data.isPrefixOf t.data

/-- Models Python `s[n:]` (drop the first `n` code points). -/
def pyDrop (s : String) (n : Nat) : String :=
  ⟨s.data.drop n⟩

/-- Models Python `s[a:b]` for `0 ≤ a ≤ b` (code-point slice). -/
def pySlice (s : String) (a b : Nat) : String :=
  ⟨(s.data.drop a).take (b - a)⟩

/-- Models Python `len(s)` (number of code points). -/
def pyLen (s : String) : Nat :=
  s.data.length

/-- Splitting a character list at every occurrence of `c`
(the list of fields of Python `s.split(c)`). -/
def splitChar (c : Char) : List Char → List (List Char)
  | [] => [[]]
  | x :: xs =>
    if x = c then [] :: splitChar c xs
    else
      match splitChar c xs with
      | [] => [[x]]
      | y :: ys => (x :: y) :: ys

/-- Models Python `s.split('\n')`. -/
def pySplitNl (s : String) : List String :=
  (splitChar '\n' s.data).map String.mk

/-- Joining character lists with a separator character
(Python `c.join(fields)` at character-list level). -/
def intercalChar (c : Char) : List (List Char) → List Char
  | [] => []
  | [x] => x
  | x :: y :: ys => x ++ c :: intercalChar c (y :: ys)

/-- Models Python `'\n'.join(lines)`. -/
def pyJoinNl (lines : List String) : String :=
  ⟨intercalChar '\n' (lines.map String.data)⟩

/-- Helper for `pySplitOnce`: split a character list at the first
occurrence of `c`, if any. -/
def splitOnceAux (c : Char) : List Char → Option (List Char × List Char)
  | [] => none
  | x :: xs =>
    if x = c then some ([], xs)
    else (splitOnceAux c xs).map (fun p => (x :: p.1, p.2))

/-- Models Python `s.split(c, 1)` when `c` occurs in `s`
(`none` when it does not). -/
def pySplitOnce (s : String) (c : Char) : Option (String × String) :=
  (splitOnceAux c s.data).map (fun p => (⟨p.1⟩, ⟨p.2⟩))

/-- Models Python `s.find(c)` (`none` for Python's `-1`). -/
def pyFindChar (s : String) (c : Char) : Option Nat :=
  List.findIdx? (fun x => x = c) s.data

/-- Models Python `s.rfind(c)` (`none` for Python's `-1`). -/
def pyRFindChar (s : String) (c : Char) : Option Nat :=
  (List.findIdx? (fun x => x = c) s.data.reverse).map
    (fun i => s.data.length - 1 - i)

/-! ## JSON values

Decoded JSON objects (the output of Python `json.loads`) are modelled by
this inductive type; `json.loads` itself is a Python standard-library call
and is modelled as an oracle argument `parse : String → Option Json`
wherever the code calls it. -/

inductive Json where
  | null : Json
  | bool (b : Bool) : Json
  | num (q : ℚ) : Json
  | str (s : String) : Json
  | arr (elems : List Json) : Json
  | obj (fields : List (String × Json)) : Json

/-- Models Python `key in data` / `data[key]` on a decoded JSON value:
field lookup on objects, `none` otherwise. -/
def Json.find? : Json → String → Option Json
  | .obj fields, key => fields.lookup key
  | _, _ => none

/-- Models Python `d.get(key, default)` where the code expects a string
value (a present non-string value would raise in Python at the later
`startswith` call and is outside the well-formed unit shapes modelled
here). -/
def Json.getStrD (j : Json) (key : String) (d : String) : String :=
  match j.find? key with
  | some (.str s) => s
  | _ => d

/-- Models Python `d.get(key)` where the code expects an optional string
value (`None`, JSON `null` and absent keys all give `none`). -/
def Json.getStr? (j : Json) (key : String) : Option String :=
  match j.find? key with
  | some (.str s) => some s
  | _ => none

/-- Models Python `d.get(key, 0)` where the code expects a number. -/
def Json.getNumD (j : Json) (key : String) (d : ℚ) : ℚ :=
  match j.find? key with
  | some (.num q) => q
  | _ => d

/-- Python truthiness of a decoded JSON value (used by
`if usage_data:`). -/
def Json.truthy : Json → Bool
  | .null => false
  | .bool b => b
  | .num q => decide (q ≠ 0)
  | .str s => s != ""
  | .arr elems => !elems.isEmpty
  | .obj fields => !fields.isEmpty

/-- Python truthiness of an optional string (used by
`if finish_reason_str:`). -/
def optTruthy : Option String → Bool
  | some s => s != ""
  | none => false

/-! ## Finish-reason mapper

Embeds `QwenLlm._map_finish_reason` (qianwen.py 503-516) and the textually
identical `OpenAILlm._map_finish_reason` (openai_client.py 237-250). -/

/-- The normalized completion outcomes (`types.FinishReason` members used
by the adapters). -/
inductive FinishReason where
  | STOP : FinishReason
  | MAX_TOKENS : FinishReason
  | SAFETY : FinishReason
deriving DecidableEq, Repr

/-- The vendor-string lookup table of `_map_finish_reason`. -/
def finishReasonTable : List (String × FinishReason) :=
  [(("stop"), .STOP),
   (("length"), .MAX_TOKENS),
   (("content_filter"), .SAFETY),
   (("function_call"), .STOP),
   (("tool_calls"), .STOP)]

/-- Embeds `_map_finish_reason`: `None`/empty input gives `none`; otherwise
the lowercased string is looked up in the table, defaulting to `STOP`
(this is `mapping.get(reason.lower(), types.FinishReason.STOP)`). -/
def mapFinishReason : Option String → Option FinishReason
  | none => none
  | some s =>
    if s = "" then none
    else some ((finishReasonTable.lookup (pyLower s)).getD .STOP)

/-! ## Text sanitizer

Embeds `QwenLlm._clean_markdown_json` (qianwen.py 187-230). -/

/-- A line matching the compiled pattern `code_block_start`, the regex
for a fence-open line (three backticks, optionally tagged `json`,
surrounded only by whitespace). -/
def isFenceOpenLine (line : String) : Bool :=
  pyStrip line = "```" || pyStrip line = "```json"

/-- A line matching the compiled pattern `code_block_end` (three backticks
surrounded only by whitespace). -/
def isFenceCloseLine (line : String) : Bool :=
  pyStrip line = "```"

/-- The line-filtering loop of `_clean_markdown_json` (qianwen.py
202-216), with the branch order of the source. Every fence-open line
takes the first branch (note that a plain ``` ``` `` line matches the
fence-open pattern too, since its `json` tag is optional, so the second
branch is unreachable); all other lines are kept whether inside a fence
or not. -/
def cleanLoop : List String → Bool → List String
  | [], _ => []
  | line :: rest, inCodeBlock =>
    if isFenceOpenLine line then cleanLoop rest true
    else if inCodeBlock && isFenceCloseLine line then cleanLoop rest false
    else if !inCodeBlock then line :: cleanLoop rest inCodeBlock
    else line :: cleanLoop rest inCodeBlock

/-- Minimal capture of the fallback pattern: the characters up to the next
three consecutive backticks (`none` when no closing fence exists). -/
def captureUntilTriple : List Char → Option (List Char)
  | [] => none
  | x :: xs =>
    if List.isPrefixOf ("```").data (x :: xs) then some []
    else (captureUntilTriple xs).map (fun content => x :: content)

/-- One match attempt of the fallback pattern at an opening fence:
optionally consume a (case-insensitive) `json` tag, skip whitespace, and
capture minimally up to the closing fence. -/
def fenceCapture (rest : List Char) : Option (List Char) :=
  let rest2 :=
    if List.isPrefixOf ("json").data (rest.map Char.toLower) then rest.drop 4 else rest
  captureUntilTriple (rest2.dropWhile isPySpace)

/-- Left-to-right scan for the first successful match of the fallback
pattern ` ```(?:json)?\s*([\s\S]*?)``` ` (with `re.IGNORECASE`); returns
its capture group. -/
def extractFenceAux : List Char → Option (List Char)
  | [] => none
  | x :: xs =>
    if List.isPrefixOf ("```").data (x :: xs) then
      match fenceCapture ((x :: xs).drop 3) with
      | some content => some content
      | none => extractFenceAux xs
    else extractFenceAux xs

/-- Models `re.findall(extract_pattern, text, re.IGNORECASE)` followed by
`matches[0].strip()` (qianwen.py 223-228): the first captured fenced
content, stripped; `none` when there is no match. -/
def extractFenceContent (text : String) : Option String :=
  (extractFenceAux text.data).map (fun content => pyStrip ⟨content⟩)

/-- Embeds `QwenLlm._clean_markdown_json` (qianwen.py 187-230): strip the
text, drop fence-marker lines, rejoin and strip; when the result is
blank, fall back to direct fenced-content extraction, else return the
blank result stripped. -/
def cleanMarkdownJson (text : String) : String :=
  if text = "" then ""
  else
    let text2 := pyStrip text
    let cleanedLines := cleanLoop (pySplitNl text2) false
    let result := pyJoinNl cleanedLines
    if pyStrip result = "" then
      match extractFenceContent text2 with
      | some content => content
      | none => pyStrip result
    else pyStrip result

/-! ## Normalized events and the response unifier

Embeds the per-unit bodies of `QwenLlm._process_sse_stream` (qianwen.py
382-457) and `QwenLlm._process_json_stream` (qianwen.py 288-380). -/

/-- One normalized event: the fields of the `LlmResponse` objects this
core yields. `content` is the text of the single assistant `Part` when a
content object is present; `usage` carries
`(prompt_token_count, total_token_count)` when usage metadata is
present. -/
structure LlmResponseE where
  content : Option String
  finishReason : Option FinishReason
  usage : Option (ℚ × ℚ)
deriving DecidableEq, Repr

/-- The text payload and optional completion marker probed out of one
decoded logical unit. -/
structure Extracted where
  currentText : String
  finishReasonStr : Option String
deriving DecidableEq, Repr

/-- Embeds the shape-probing block shared by `_process_sse_stream`
(qianwen.py 411-428) and `_process_json_stream` (qianwen.py 313-331):
`output.text` and `output.finish_reason` when an `output` member exists,
else the first choice's `message.content` or `delta.content` with
`choice.finish_reason`; empty text and no reason otherwise. -/
def extractUnit (data : Json) : Extracted :=
  match data.find? ("output") with
  | some output =>
    { currentText := output.getStrD ("text") (""),
      finishReasonStr := output.getStr? ("finish_reason") }
  | none =>
    match data.find? ("choices") with
    | some (.arr (choice :: _)) =>
      match choice.find? ("message") with
      | some message =>
        { currentText := message.getStrD ("content") (""),
          finishReasonStr := choice.getStr? ("finish_reason") }
      | none =>
        match choice.find? ("delta") with
        | some delta =>
          { currentText := delta.getStrD ("content") (""),
            finishReasonStr := choice.getStr? ("finish_reason") }
        | none => { currentText := "", finishReasonStr := none }
    | _ => { currentText := "", finishReasonStr := none }

/-- A Shape-A logical unit
`{"output": {"text": t(, "finish_reason": r)}}`. -/
def shapeA (t : String) (r : Option String) : Json :=
  Json.obj [(("output"),
    Json.obj ((("text"), Json.str t) ::
      (match r with
       | some s => [(("finish_reason"), Json.str s)]
       | none => [])))]

/-- The incremental-delta block shared by both streaming processors
(qianwen.py 430-444 and 337-352): when the current text is non-empty and
starts with the accumulated text, the suffix beyond the accumulated
length (`incremental_text = current_text[len(accumulated_text):]`,
written out twice below) is the incremental fragment, the accumulated
text becomes the current text, and the non-empty fragment is emitted
(`emit` is how the calling path wraps the fragment into its yielded
event). Otherwise nothing happens. -/
def deltaStep (emit : String → LlmResponseE) (accumulated : String) (ex : Extracted) :
    String × List LlmResponseE :=
  if ex.currentText != "" && pyStartsWith ex.currentText accumulated then
    (ex.currentText,
      if pyDrop ex.currentText (pyLen accumulated) != "" then
        [emit (pyDrop ex.currentText (pyLen accumulated))]
      else [])
  else (accumulated, [])

/-- The `if finish_reason_str:` block of both processors: one final event
with the mapped reason (and, on the JSON path, the usage metadata). -/
def completeStep (usageData : Option (ℚ × ℚ)) (ex : Extracted) : List LlmResponseE :=
  if optTruthy ex.finishReasonStr then
    [{ content := none, finishReason := mapFinishReason ex.finishReasonStr, usage := usageData }]
  else []

/-- The event the SSE path yields for one incremental fragment
(qianwen.py 437-444): the fragment itself, no finish reason. -/
def sseDeltaEvent (inc : String) : LlmResponseE :=
  { content := some inc, finishReason := none, usage := none }

/-- The event the JSON path yields for one incremental fragment
(qianwen.py 343-352): the fragment after `_clean_markdown_json`, no
finish reason. -/
def jsonDeltaEvent (inc : String) : LlmResponseE :=
  { content := some (cleanMarkdownJson inc), finishReason := none, usage := none }

/-- Embeds the per-unit body of `_process_sse_stream` (qianwen.py
409-453): the new accumulated text and the events yielded for one decoded
unit, in order (deltas first, then the complete event when present). -/
def processUnitSse (accumulated : String) (data : Json) : String × List LlmResponseE :=
  ((deltaStep sseDeltaEvent accumulated (extractUnit data)).1,
   (deltaStep sseDeltaEvent accumulated (extractUnit data)).2
     ++ completeStep none (extractUnit data))

/-- The usage metadata of the JSON-stream path (qianwen.py 333-335,
359-365): present when the unit has a truthy `usage` member. -/
def usageMeta (data : Json) : Option (ℚ × ℚ) :=
  match data.find? ("usage") with
  | some u =>
    if u.truthy then some (u.getNumD ("input_tokens") 0, u.getNumD ("total_tokens") 0)
    else none
  | none => none

/-- Embeds the per-unit body of `_process_json_stream` (qianwen.py
311-372): as the SSE path, except each incremental fragment passes
through `_clean_markdown_json` before being yielded, and the complete
event carries the usage metadata. -/
def processUnitJson (accumulated : String) (data : Json) : String × List LlmResponseE :=
  ((deltaStep jsonDeltaEvent accumulated (extractUnit data)).1,
   (deltaStep jsonDeltaEvent accumulated (extractUnit data)).2
     ++ completeStep (usageMeta data) (extractUnit data))

/-- Processing a sequence of decoded units with a per-unit body, threading
the accumulated text: the final accumulated text and all yielded events
in order. -/
def runUnits (step : String → Json → String × List LlmResponseE) (accumulated : String) :
    List Json → String × List LlmResponseE
  | [] => (accumulated, [])
  | u :: rest =>
    ((runUnits step (step accumulated u).1 rest).1,
     (step accumulated u).2 ++ (runUnits step (step accumulated u).1 rest).2)

/-- All events the SSE-path unifier yields for a sequence of decoded
units, starting from a given accumulated text. -/
def processUnitsSse (accumulated : String) (units : List Json) : List LlmResponseE :=
  (runUnits processUnitSse accumulated units).2

/-- All events the JSON-path unifier yields for a sequence of decoded
units, starting from a given accumulated text. -/
def processUnitsJson (accumulated : String) (units : List Json) : List LlmResponseE :=
  (runUnits processUnitJson accumulated units).2

/-! ## Chunk reassembler: line-oriented SSE framing

Embeds the buffer handling of `_process_sse_stream` (qianwen.py 382-457),
with `parse` modelling the Python standard-library call `json.loads`
(`none` models a raised `json.JSONDecodeError`). -/

/-- The `while '\n' in buffer:` loop of `_process_sse_stream`: split off
one line at a time, strip it, skip empty and non-`data: ` lines, stop on
`data: [DONE]` (the `break` leaves the rest of the buffer in place),
parse other `data: ` payloads and process the decoded unit. `fuel` bounds
the iteration count; every caller passes at least the buffer length,
which suffices because each iteration consumes at least one character.
Returns the remaining buffer, the accumulated text, and the yielded
events. -/
def sseLineLoop (parse : String → Option Json) :
    Nat → String → String → String × String × List LlmResponseE
  | 0, buffer, accumulated => (buffer, accumulated, [])
  | fuel + 1, buffer, accumulated =>
    match pySplitOnce buffer '\n' with
    | none => (buffer, accumulated, [])
    | some (rawLine, rest) =>
      let line := pyStrip rawLine
      if line = "" then sseLineLoop parse fuel rest accumulated
      else if pyStartsWith line ("data: ") then
        let dataStr := pyDrop line 6
        if dataStr = "[DONE]" then (rest, accumulated, [])
        else
          match parse dataStr with
          | none => sseLineLoop parse fuel rest accumulated
          | some data =>
            let r := processUnitSse accumulated data
            let r2 := sseLineLoop parse fuel rest r.1
            (r2.1, r2.2.1, r.2 ++ r2.2.2)
      else sseLineLoop parse fuel rest accumulated

/-- The chunk loop of `_process_sse_stream`: each non-empty chunk is
appended to the buffer and the line loop runs; the `[DONE]` `break` only
exits the line loop, so processing resumes with the next chunk. Returns
all yielded events. -/
def processSseStream (parse : String → Option Json) :
    List String → String → String → List LlmResponseE
  | [], _, _ => []
  | chunk :: rest, buffer, accumulated =>
    if chunk = "" then processSseStream parse rest buffer accumulated
    else
      let buffer2 := buffer ++ chunk
      let r := sseLineLoop parse (pyLen buffer2) buffer2 accumulated
      r.2.2 ++ processSseStream parse rest r.1 r.2.1

/-! ## Chunk reassembler: delimiter-free JSON framing

Embeds the buffer handling of `_process_json_stream` (qianwen.py
288-380). -/

/-- The per-chunk body of `_process_json_stream` (qianwen.py 293-380).
The state is the pair (buffer, accumulated text). Mirrors the source
statement order exactly: the span from the first `{` to the last `}` is
cut out of the buffer BEFORE it is parsed (line 309 precedes line 311),
so the `except json.JSONDecodeError: continue` path runs with the buffer
already truncated. -/
def jsonChunkStep (parse : String → Option Json) (st : String × String) (chunk : String) :
    (String × String) × List LlmResponseE :=
  if chunk = "" then (st, [])
  else
    let buffer := st.1 ++ chunk
    match pyFindChar buffer '{', pyRFindChar buffer '}' with
    | some start, some stop =>
      if start < stop then
        let jsonStr := pySlice buffer start (stop + 1)
        let buffer2 := pyDrop buffer (stop + 1)
        match parse jsonStr with
        | none => ((buffer2, st.2), [])
        | some data =>
          let r := processUnitJson st.2 data
          ((buffer2, r.1), r.2)
      else ((buffer, st.2), [])
    | _, _ => ((buffer, st.2), [])

/-- The chunk loop of `_process_json_stream`: fold the per-chunk body over
the chunks, collecting the yielded events. -/
def processJsonStream (parse : String → Option Json) :
    List String → (String × String) → (String × String) × List LlmResponseE
  | [], st => (st, [])
  | chunk :: rest, st =>
    let r := jsonChunkStep parse st chunk
    let r2 := processJsonStream parse rest r.1
    (r2.1, r.2 ++ r2.2)

/-! ## OpenAI chunk parser

Embeds `OpenAILlm._parse_openai_chunk` and the streaming branch of
`OpenAILlm.generate_content_async` (openai_client.py 140-198). -/

/-- The first choice of an OpenAI streaming chunk: `delta.content` and
`finish_reason`, both optional. -/
structure OpenAIChunkChoice where
  deltaContent : Option String
  finishReason : Option String
deriving DecidableEq, Repr

/-- An OpenAI streaming chunk (only its `choices` list is read). -/
structure OpenAIChunk where
  choices : List OpenAIChunkChoice
deriving DecidableEq, Repr

/-- Embeds `OpenAILlm._parse_openai_chunk` (openai_client.py 162-198):
no choices gives an empty response; a non-empty `delta.content` gives a
text response; else a truthy `finish_reason` gives a completion response;
else an empty response. -/
def parseOpenaiChunk (chunk : OpenAIChunk) : LlmResponseE :=
  match chunk.choices with
  | [] => { content := none, finishReason := none, usage := none }
  | choice :: _ =>
    if choice.deltaContent.getD ("") != ("") then
      { content := some (choice.deltaContent.getD ("")), finishReason := none, usage := none }
    else if optTruthy choice.finishReason then
      { content := none, finishReason := mapFinishReason choice.finishReason, usage := none }
    else
      { content := none, finishReason := none, usage := none }

/-- Embeds the streaming branch of `OpenAILlm.generate_content_async`
(openai_client.py 140-155): every chunk is parsed and yielded, then an
unconditional final complete(STOP) event is yielded after the stream
ends. -/
def openaiStreamEvents (chunks : List OpenAIChunk) : List LlmResponseE :=
  chunks.map parseOpenaiChunk ++
    [{ content := none, finishReason := some .STOP, usage := none }]

/-! ## SSE event framer

Embeds `SSEGenerator.generate_sse_event` (main.py 54-67). Note that
`main.py` line 69 creates ONE module-level `SSEGenerator` instance that
every connection handler uses, so the counter below is threaded through
all frames the process emits, not per connection. -/

/-- Embeds `SSEGenerator.generate_sse_event`: increment the counter, use
it as the frame id. Returns the new counter value, the frame id, and the
wire-format frame text. -/
def generateSseEvent (eventId : Nat) (dataJson : String) (eventType : String) :
    Nat × Nat × String :=
  let newId := eventId + 1
  (newId, newId,
    ("id: ") ++ toString newId ++ ("\nevent: ") ++ eventType ++
      ("\ndata: ") ++ dataJson ++ ("\n\n"))

/-- Emitting a sequence of (data, event-type) pairs through the framer,
threading the counter: the final counter value and the (id, frame)
pairs in order. -/
def emitFrames (eventId : Nat) : List (String × String) → Nat × List (Nat × String)
  | [] => (eventId, [])
  | (dataJson, eventType) :: rest =>
    let r := generateSseEvent eventId dataJson eventType
    let r2 := emitFrames r.1 rest
    (r2.1, (r.2.1, r.2.2) :: r2.2)

/-! ## Message adapter: generation parameters

Embeds `QwenLlm._convert_to_qwen_parameters` (qianwen.py 89-108) and
`OpenAILlm._get_generation_parameters` (openai_client.py 86-106). -/

/-- The generic generation parameters found on the caller's configuration
(`request.config`); a field is `none` when the parameter is absent or
`None` on the config object. Numeric values are modelled as rationals. -/
structure GenConfigE where
  temperature : Option ℚ
  maxOutputTokens : Option ℚ
  topP : Option ℚ
  topK : Option ℚ
  repetitionPenalty : Option ℚ
  frequencyPenalty : Option ℚ
  presencePenalty : Option ℚ

/-- Embeds `QwenLlm._convert_to_qwen_parameters` (qianwen.py 89-108):
temperature and max_tokens are always present (`getattr` defaults 0.7 and
2048); top_p, top_k and repetition_penalty are added only when present
and non-None on the config. `config` itself is optional, mirroring the
`config and hasattr(...)` guards. -/
def qwenParameters (config : Option GenConfigE) : List (String × Json) :=
  [(("temperature"), Json.num ((config.bind GenConfigE.temperature).getD (7 / 10))),
   (("max_tokens"), Json.num ((config.bind GenConfigE.maxOutputTokens).getD 2048))]
  ++ (match config.bind GenConfigE.topP with
      | some v => [(("top_p"), Json.num v)]
      | none => [])
  ++ (match config.bind GenConfigE.topK with
      | some v => [(("top_k"), Json.num v)]
      | none => [])
  ++ (match config.bind GenConfigE.repetitionPenalty with
      | some v => [(("repetition_penalty"), Json.num v)]
      | none => [])

/-- Embeds `OpenAILlm._get_generation_parameters` (openai_client.py
86-106): model name, temperature and max_tokens are always present (the
defaults are the adapter's stored constructor defaults); top_p,
frequency_penalty and presence_penalty are added only when present and
non-None on the config. -/
def openaiParameters (modelName : String) (defaultTemperature defaultMaxTokens : ℚ)
    (config : Option GenConfigE) : List (String × Json) :=
  [(("model"), Json.str modelName),
   (("temperature"), Json.num ((config.bind GenConfigE.temperature).getD defaultTemperature)),
   (("max_tokens"), Json.num ((config.bind GenConfigE.maxOutputTokens).getD defaultMaxTokens))]
  ++ (match config.bind GenConfigE.topP with
      | some v => [(("top_p"), Json.num v)]
      | none => [])
  ++ (match config.bind GenConfigE.frequencyPenalty with
      | some v => [(("frequency_penalty"), Json.num v)]
      | none => [])
  ++ (match config.bind GenConfigE.presencePenalty with
      | some v => [(("presence_penalty"), Json.num v)]
      | none => [])

/-- Concatenation of the text payloads of a list of emitted events. -/
def concatTexts (events : List LlmResponseE) : String :=
  events.foldr (fun e acc => (e.content.getD ("")) ++ acc) ("")

/-- Truthiness of the finish-reason string a unit carries (the condition
under which the processors emit a complete event for it). -/
def truthyFinish (data : Json) : Bool :=
  optTruthy (extractUnit data).finishReasonStr

/-- An emitted event is a complete event when it carries a finish
reason. -/
def isCompleteEvent (e : LlmResponseE) : Bool :=
  e.finishReason.isSome

/-- Models `json.loads` for the run that exercises the `[DONE]` handling:
the only data string that run parses is a Shape-A unit carrying text
`X` (any other input would fail to parse). -/
def parseAfterDoneOracle (s : String) : Option Json :=
  if s = "\x7b\"output\":\x7b\"text\":\"X\"\x7d\x7d" then some (shapeA ("X") none)
  else none

/-- Models `json.loads` for the run that exercises the truncation on
parse failure: the probed span `{"output":{"text":"hi"}` has unbalanced
braces, so parsing it fails. -/
def parseNeverOracle (_ : String) : Option Json :=
  none

/-! ## Helper lemmas on the string primitives -/

theorem data_append (a b : String) : (a ++ b).data = a.data ++ b.data := by
  cases a
  cases b
  rfl

theorem pyStartsWith_empty (s : String) : pyStartsWith s ("") = true := by
  simp [pyStartsWith]

theorem pyDrop_zero (s : String) : pyDrop s 0 = s := by
  cases s
  simp [pyDrop]

theorem append_empty_str (s : String) : s ++ ("") = s := by
  apply String.ext
  rw [data_append]
  simp

theorem pyStartsWith_append_drop {t p : String} (h : pyStartsWith t p = true) :
    p ++ pyDrop t (pyLen p) = t := by
  have hpre : p.data <+: t.data := List.isPrefixOf_iff_prefix.mp h
  obtain ⟨u, hu⟩ := hpre
  apply String.ext
  rw [data_append]
  show p.data ++ t.data.drop p.data.length = t.data
  rw [← hu, List.drop_left]

theorem ne_empty_of_pyStartsWith {t p : String} (h : pyStartsWith t p = true)
    (hp : p ≠ ("")) : t ≠ ("") := by
  intro ht
  apply hp
  subst ht
  unfold pyStartsWith at h
  apply String.ext
  cases hd : p.data with
  | nil => simp [hd]
  | cons a as => rw [hd] at h; simp [List.isPrefixOf] at h

theorem eq_of_pyStartsWith_drop_empty {t p : String} (h : pyStartsWith t p = true)
    (hd : pyDrop t (pyLen p) = ("")) : t = p := by
  have h2 := pyStartsWith_append_drop h
  rw [hd, append_empty_str] at h2
  exact h2.symm

/-! ## Claim C5: SSE frame identifiers -/

theorem emitFrames_ids (eventId : Nat) (events : List (String × String)) :
    (emitFrames eventId events).2.map Prod.fst = List.range' (eventId + 1) events.length := by
  induction events generalizing eventId with
  | nil => rfl
  | cons e rest ih =>
    cases e
    simp [emitFrames, generateSseEvent, ih, List.range'_succ]

/-- C5 (corrected): the framer's counter is threaded through every frame
the process emits (one module-level `SSEGenerator` serves all
connections): frames emitted while the counter stands at `eventId` get
the consecutive strictly increasing identifiers
`eventId+1, …, eventId+N`; from a fresh counter (process start) the
identifiers are exactly `1, …, N`. Identifiers therefore restart at 1
per process, not per connection. -/
theorem C5_frame_ids_process_global (eventId : Nat) (events : List (String × String)) :
    (emitFrames eventId events).2.map Prod.fst = List.range' (eventId + 1) events.length ∧
    List.Pairwise (fun a b => a < b) ((emitFrames eventId events).2.map Prod.fst) ∧
    (emitFrames 0 events).2.map Prod.fst = List.range' 1 events.length := by
  refine ⟨emitFrames_ids eventId events, ?_, emitFrames_ids 0 events⟩
  rw [emitFrames_ids]
  exact List.pairwise_lt_range' _ _

/-- C5 counterexample: with the shared module-level generator, a second
connection that emits its first (and only) frame after another connection
has already emitted one gets frame identifier 2, not the identifier 1
that a per-connection counter would produce. -/
theorem C5_counterexample :
    ((emitFrames (emitFrames 0 [(("d"), ("message"))]).1 [(("d"), ("message"))]).2.map
        Prod.fst = [2]) ∧
    ([2] : List Nat) ≠ [1] := by
  constructor
  · rfl
  · decide

/-! ## Claim C6: finish-reason mapper -/

/-- C6: the finish-reason mapper sends a missing or empty reason to
`none`, the three table entries `stop`, `length` and `content_filter` to
`STOP`, `MAX_TOKENS` and `SAFETY`, depends only on the lowercased input
(case-insensitivity), and sends every non-empty string outside the table
to the default `STOP`, never failing. -/
theorem C6_finish_reason_mapper :
    mapFinishReason none = none ∧
    mapFinishReason (some ("")) = none ∧
    mapFinishReason (some ("stop")) = some FinishReason.STOP ∧
    mapFinishReason (some ("length")) = some FinishReason.MAX_TOKENS ∧
    mapFinishReason (some ("content_filter")) = some FinishReason.SAFETY ∧
    (∀ s t : String, s ≠ ("") → t ≠ ("") → pyLower s = pyLower t →
      mapFinishReason (some s) = mapFinishReason (some t)) ∧
    (∀ s : String, s ≠ ("") → finishReasonTable.lookup (pyLower s) = none →
      mapFinishReason (some s) = some FinishReason.STOP) := by
  refine ⟨rfl, rfl, by decide, by decide, by decide, ?_, ?_⟩
  · intro s t hs ht hlow
    simp [mapFinishReason, hs, ht, hlow]
  · intro s hs hl
    simp [mapFinishReason, hs, hl]

/-- C6 witness: the mapper treats `STOP` and `stop` identically, and an
unrecognised non-empty reason such as `eos` maps to the default `STOP`. -/
theorem C6_witness :
    mapFinishReason (some ("STOP")) = mapFinishReason (some ("stop")) ∧
    mapFinishReason (some ("eos")) = some FinishReason.STOP := by
  constructor
  · exact C6_finish_reason_mapper.2.2.2.2.2.1 ("STOP") ("stop") (by decide) (by decide)
      (by decide)
  · exact C6_finish_reason_mapper.2.2.2.2.2.2 ("eos") (by decide) (by decide)

/-! ## Claim C9: generation-parameter forwarding -/

/-- C9: for every configuration, each optional generation parameter
appears in the vendor payload exactly when it is present (non-None) on
the caller's configuration, under its vendor key, with its value; absent
optional parameters never appear (qwen: top_p, top_k,
repetition_penalty; openai: top_p, frequency_penalty,
presence_penalty). -/
theorem C9_optional_parameters_forwarding :
    (∀ config : Option GenConfigE,
      (qwenParameters config).lookup ("top_p")
          = (config.bind GenConfigE.topP).map Json.num ∧
      ((qwenParameters config).map Prod.fst).contains ("top_p")
          = (config.bind GenConfigE.topP).isSome ∧
      (qwenParameters config).lookup ("top_k")
          = (config.bind GenConfigE.topK).map Json.num ∧
      ((qwenParameters config).map Prod.fst).contains ("top_k")
          = (config.bind GenConfigE.topK).isSome ∧
      (qwenParameters config).lookup ("repetition_penalty")
          = (config.bind GenConfigE.repetitionPenalty).map Json.num ∧
      ((qwenParameters config).map Prod.fst).contains ("repetition_penalty")
          = (config.bind GenConfigE.repetitionPenalty).isSome) ∧
    (∀ (modelName : String) (defaultTemperature defaultMaxTokens : ℚ)
        (config : Option GenConfigE),
      (openaiParameters modelName defaultTemperature defaultMaxTokens config).lookup ("top_p")
          = (config.bind GenConfigE.topP).map Json.num ∧
      ((openaiParameters modelName defaultTemperature defaultMaxTokens config).map
          Prod.fst).contains ("top_p")
          = (config.bind GenConfigE.topP).isSome ∧
      (openaiParameters modelName defaultTemperature defaultMaxTokens config).lookup
          ("frequency_penalty")
          = (config.bind GenConfigE.frequencyPenalty).map Json.num ∧
      ((openaiParameters modelName defaultTemperature defaultMaxTokens config).map
          Prod.fst).contains ("frequency_penalty")
          = (config.bind GenConfigE.frequencyPenalty).isSome ∧
      (openaiParameters modelName defaultTemperature defaultMaxTokens config).lookup
          ("presence_penalty")
          = (config.bind GenConfigE.presencePenalty).map Json.num ∧
      ((openaiParameters modelName defaultTemperature defaultMaxTokens config).map
          Prod.fst).contains ("presence_penalty")
          = (config.bind GenConfigE.presencePenalty).isSome) := by
  constructor
  · intro config
    rcases config with _ | ⟨t, m, tp, tk, rp, fp, pp⟩
    · exact ⟨rfl, rfl, rfl, rfl, rfl, rfl⟩
    · rcases tp with _ | v <;> rcases tk with _ | w <;> rcases rp with _ | x <;>
        exact ⟨rfl, rfl, rfl, rfl, rfl, rfl⟩
  · intro modelName dT dM config
    rcases config with _ | ⟨t, m, tp, tk, rp, fp, pp⟩
    · exact ⟨rfl, rfl, rfl, rfl, rfl, rfl⟩
    · rcases tp with _ | v <;> rcases fp with _ | x <;> rcases pp with _ | y <;>
        exact ⟨rfl, rfl, rfl, rfl, rfl, rfl⟩

/-! ## Helper lemmas on the per-unit processors -/

theorem mem_deltaStep {emit : String → LlmResponseE} {accumulated : String} {ex : Extracted}
    {e : LlmResponseE} (h : e ∈ (deltaStep emit accumulated ex).2) :
    e = emit (pyDrop ex.currentText (pyLen accumulated)) ∧
      pyDrop ex.currentText (pyLen accumulated) ≠ ("") := by
  unfold deltaStep at h
  split at h
  · simp only at h
    split at h
    case isTrue hinc => exact ⟨List.mem_singleton.mp h, bne_iff_ne.mp hinc⟩
    case isFalse => simp at h
  · simp at h

theorem deltaStep_not_startsWith {emit : String → LlmResponseE} {accumulated : String}
    {ex : Extracted} (h : pyStartsWith ex.currentText accumulated = false) :
    deltaStep emit accumulated ex = (accumulated, []) := by
  simp [deltaStep, h]

theorem completeStep_content {u : Option (ℚ × ℚ)} {ex : Extracted} {e : LlmResponseE}
    (h : e ∈ completeStep u ex) : e.content = none := by
  unfold completeStep at h
  split at h
  · rw [List.mem_singleton.mp h]
  · simp at h

theorem completeStep_of_not_truthy {u : Option (ℚ × ℚ)} {ex : Extracted}
    (h : optTruthy ex.finishReasonStr = false) : completeStep u ex = [] := by
  simp [completeStep, h]

theorem completeStep_of_truthy {u : Option (ℚ × ℚ)} {ex : Extracted}
    (h : optTruthy ex.finishReasonStr = true) :
    completeStep u ex =
      [{ content := none, finishReason := mapFinishReason ex.finishReasonStr, usage := u }] := by
  simp [completeStep, h]

theorem mapFinishReason_isSome_of_truthy {r : Option String} (h : optTruthy r = true) :
    (mapFinishReason r).isSome = true := by
  cases r with
  | none => simp [optTruthy] at h
  | some s =>
    have hs : s ≠ ("") := by simpa [optTruthy] using h
    simp [mapFinishReason, hs]

/-! ## Claim C2: non-extension current text -/

/-- C2 (corrected): a unit whose non-empty current text does NOT start
with the previously accumulated text is ignored by both streaming
processors: the accumulated text is left unchanged and no text-delta
event is emitted (any event the unit still yields is a complete event,
which carries no content). The append-and-emit behavior the claim
describes does not exist in the code. -/
theorem C2_non_extension_ignored (accumulated : String) (data : Json)
    (_hne : (extractUnit data).currentText ≠ (""))
    (hns : pyStartsWith (extractUnit data).currentText accumulated = false) :
    (processUnitSse accumulated data).1 = accumulated ∧
    (∀ e ∈ (processUnitSse accumulated data).2, e.content = none) ∧
    (processUnitJson accumulated data).1 = accumulated ∧
    (∀ e ∈ (processUnitJson accumulated data).2, e.content = none) := by
  refine ⟨?_, ?_, ?_, ?_⟩
  · simp [processUnitSse, deltaStep_not_startsWith hns]
  · intro e he
    simp only [processUnitSse, deltaStep_not_startsWith hns, List.nil_append] at he
    exact completeStep_content he
  · simp [processUnitJson, deltaStep_not_startsWith hns]
  · intro e he
    simp only [processUnitJson, deltaStep_not_startsWith hns, List.nil_append] at he
    exact completeStep_content he

/-- C2 counterexample: with accumulated text `abc` and a Shape-A unit
carrying the non-empty, non-extension current text `xyz`, the SSE
processor emits no event at all and leaves the accumulated state at
`abc`, whereas the claim requires a text-delta event `xyz` and an
accumulated state of `abcxyz`. -/
theorem C2_counterexample :
    processUnitSse ("abc") (shapeA ("xyz") none) = (("abc"), []) ∧
    pyStartsWith ("xyz") ("abc") = false ∧
    (("xyz") : String) ≠ ("") := by
  exact ⟨rfl, rfl, by decide⟩

/-- C2 witness: the amended statement at a concrete input. -/
theorem C2_witness :
    (processUnitSse ("ab") (shapeA ("zz") none)).1 = ("ab") ∧
    (∀ e ∈ (processUnitSse ("ab") (shapeA ("zz") none)).2, e.content = none) := by
  have h := C2_non_extension_ignored ("ab") (shapeA ("zz") none) (by decide) (by decide)
  exact ⟨h.1, h.2.1⟩

/-! ## Claim C1: cumulative Shape-A texts -/

theorem pyLen_empty : pyLen ("") = 0 := rfl

theorem extract_shapeA (t : String) (r : Option String) :
    extractUnit (shapeA t r) = { currentText := t, finishReasonStr := r } := by
  cases r <;> rfl

theorem processUnitSse_shapeA (accumulated t : String) :
    processUnitSse accumulated (shapeA t none) =
      if t != ("") && pyStartsWith t accumulated then
        (t,
          if pyDrop t (pyLen accumulated) != ("") then
            [sseDeltaEvent (pyDrop t (pyLen accumulated))]
          else [])
      else (accumulated, []) := by
  simp only [processUnitSse, extract_shapeA]
  rw [show completeStep none { currentText := t, finishReasonStr := none }
        = ([] : List LlmResponseE) from rfl,
    List.append_nil]
  unfold deltaStep
  split <;> rfl

theorem processUnitJson_shapeA (accumulated t : String) :
    processUnitJson accumulated (shapeA t none) =
      if t != ("") && pyStartsWith t accumulated then
        (t,
          if pyDrop t (pyLen accumulated) != ("") then
            [jsonDeltaEvent (pyDrop t (pyLen accumulated))]
          else [])
      else (accumulated, []) := by
  simp only [processUnitJson, extract_shapeA]
  rw [show completeStep (usageMeta (shapeA t none)) { currentText := t, finishReasonStr := none }
        = ([] : List LlmResponseE) from rfl,
    List.append_nil]
  unfold deltaStep
  split <;> rfl

theorem processUnitsSse_pair (accumulated : String) (a b : Json) :
    processUnitsSse accumulated [a, b] =
      (processUnitSse accumulated a).2
        ++ (processUnitSse (processUnitSse accumulated a).1 b).2 := by
  simp [processUnitsSse, runUnits]

theorem processUnitsJson_pair (accumulated : String) (a b : Json) :
    processUnitsJson accumulated [a, b] =
      (processUnitJson accumulated a).2
        ++ (processUnitJson (processUnitJson accumulated a).1 b).2 := by
  simp [processUnitsJson, runUnits]

/-- C1 (corrected): for `T1` a prefix of `T2`, feeding two Shape-A units
with texts `T1` then `T2` (accumulated text initially empty) to the SSE
processor emits only text deltas whose concatenation is `T2` — exactly
the fragments `T1` and `T2` minus its `T1` prefix when both are
non-empty. The JSON-path processor passes each fragment through the
markdown sanitizer first, so its concatenation equals `T2` when the
sanitizer leaves both fragments unchanged (the accompanying
counterexample shows it differs otherwise). -/
theorem C1_prefix_delta_emission (T1 T2 : String) (h : pyStartsWith T2 T1 = true) :
    (∀ e ∈ processUnitsSse ("") [shapeA T1 none, shapeA T2 none], e.finishReason = none) ∧
    concatTexts (processUnitsSse ("") [shapeA T1 none, shapeA T2 none]) = T2 ∧
    (T1 ≠ ("") → pyDrop T2 (pyLen T1) ≠ ("") →
      processUnitsSse ("") [shapeA T1 none, shapeA T2 none]
        = [sseDeltaEvent T1, sseDeltaEvent (pyDrop T2 (pyLen T1))]) ∧
    (cleanMarkdownJson T1 = T1 →
      cleanMarkdownJson (pyDrop T2 (pyLen T1)) = pyDrop T2 (pyLen T1) →
      concatTexts (processUnitsJson ("") [shapeA T1 none, shapeA T2 none]) = T2) := by
  by_cases h1 : T1 = ("")
  · subst h1
    by_cases h2 : T2 = ("")
    · subst h2
      refine ⟨?_, rfl, fun hc => absurd rfl hc, fun _ _ => rfl⟩
      intro e he
      have hl : processUnitsSse ("") [shapeA ("") none, shapeA ("") none] = [] := rfl
      rw [hl] at he
      exact absurd he (List.not_mem_nil e)
    · have hT2 : (T2 != ("")) = true := bne_iff_ne.mpr h2
      have hlist : processUnitsSse ("") [shapeA ("") none, shapeA T2 none]
          = [sseDeltaEvent T2] := by
        rw [processUnitsSse_pair, processUnitSse_shapeA, processUnitSse_shapeA]
        simp [hT2, pyStartsWith_empty, pyLen_empty, pyDrop_zero]
      have jlist : processUnitsJson ("") [shapeA ("") none, shapeA T2 none]
          = [jsonDeltaEvent T2] := by
        rw [processUnitsJson_pair, processUnitJson_shapeA, processUnitJson_shapeA]
        simp [hT2, pyStartsWith_empty, pyLen_empty, pyDrop_zero]
      refine ⟨?_, ?_, fun hc => absurd rfl hc, ?_⟩
      · intro e he
        rw [hlist] at he
        rw [List.mem_singleton.mp he]
        rfl
      · rw [hlist]
        simp [concatTexts, sseDeltaEvent, append_empty_str]
      · intro hc1 hc2
        rw [pyLen_empty, pyDrop_zero] at hc2
        rw [jlist]
        simp [concatTexts, jsonDeltaEvent, append_empty_str, pyLen_empty, pyDrop_zero, hc2]
  · have hT1 : (T1 != ("")) = true := bne_iff_ne.mpr h1
    have h2 : T2 ≠ ("") := ne_empty_of_pyStartsWith h h1
    have hT2 : (T2 != ("")) = true := bne_iff_ne.mpr h2
    have hfirstS : processUnitSse ("") (shapeA T1 none) = (T1, [sseDeltaEvent T1]) := by
      rw [processUnitSse_shapeA]
      simp [hT1, pyStartsWith_empty, pyLen_empty, pyDrop_zero]
    have hfirstJ : processUnitJson ("") (shapeA T1 none) = (T1, [jsonDeltaEvent T1]) := by
      rw [processUnitJson_shapeA]
      simp [hT1, pyStartsWith_empty, pyLen_empty, pyDrop_zero]
    by_cases hsuf : pyDrop T2 (pyLen T1) = ("")
    · have hT2eq : T2 = T1 := eq_of_pyStartsWith_drop_empty h hsuf
      have hlist : processUnitsSse ("") [shapeA T1 none, shapeA T2 none]
          = [sseDeltaEvent T1] := by
        rw [processUnitsSse_pair, hfirstS, processUnitSse_shapeA]
        simp [hT2, h, hsuf]
      have jlist : processUnitsJson ("") [shapeA T1 none, shapeA T2 none]
          = [jsonDeltaEvent T1] := by
        rw [processUnitsJson_pair, hfirstJ, processUnitJson_shapeA]
        simp [hT2, h, hsuf]
      refine ⟨?_, ?_, fun _ hc => absurd hsuf hc, ?_⟩
      · intro e he
        rw [hlist] at he
        rw [List.mem_singleton.mp he]
        rfl
      · rw [hlist]
        simp [concatTexts, sseDeltaEvent, append_empty_str, hT2eq]
      · intro hc1 _
        rw [jlist]
        simp [concatTexts, jsonDeltaEvent, append_empty_str, hc1, hT2eq]
    · have hSuf : (pyDrop T2 (pyLen T1) != ("")) = true := bne_iff_ne.mpr hsuf
      have hlist : processUnitsSse ("") [shapeA T1 none, shapeA T2 none]
          = [sseDeltaEvent T1, sseDeltaEvent (pyDrop T2 (pyLen T1))] := by
        rw [processUnitsSse_pair, hfirstS, processUnitSse_shapeA]
        simp [hT2, h, hSuf]
      have jlist : processUnitsJson ("") [shapeA T1 none, shapeA T2 none]
          = [jsonDeltaEvent T1, jsonDeltaEvent (pyDrop T2 (pyLen T1))] := by
        rw [processUnitsJson_pair, hfirstJ, processUnitJson_shapeA]
        simp [hT2, h, hSuf]
      refine ⟨?_, ?_, fun _ _ => hlist, ?_⟩
      · intro e he
        rw [hlist] at he
        simp only [List.mem_cons, List.not_mem_nil, or_false] at he
        rcases he with rfl | rfl <;> rfl
      · rw [hlist]
        show T1 ++ (pyDrop T2 (pyLen T1) ++ ("")) = T2
        rw [append_empty_str]
        exact pyStartsWith_append_drop h
      · intro hc1 hc2
        rw [jlist]
        show cleanMarkdownJson T1 ++ (cleanMarkdownJson (pyDrop T2 (pyLen T1)) ++ ("")) = T2
        rw [append_empty_str, hc1, hc2]
        exact pyStartsWith_append_drop h

/-- C1 counterexample: in the JSON-stream path the claim fails even for
fence-free texts, because each fragment is whitespace-stripped by the
sanitizer: with `T1` = `a ` (a prefix of `T2` = `a b`) the emitted deltas
are `a` then `b`, whose concatenation `ab` differs from `T2`. -/
theorem C1_counterexample :
    pyStartsWith ("a b") ("a ") = true ∧
    concatTexts (processUnitsJson ("") [shapeA ("a ") none, shapeA ("a b") none]) = ("ab") ∧
    (("ab") : String) ≠ ("a b") := by
  exact ⟨rfl, rfl, by decide⟩

/-- C1 witness: the amended statement at `T1` = `ab`, `T2` = `abcd`. -/
theorem C1_witness :
    processUnitsSse ("") [shapeA ("ab") none, shapeA ("abcd") none]
      = [sseDeltaEvent ("ab"), sseDeltaEvent ("cd")] ∧
    concatTexts (processUnitsJson ("") [shapeA ("ab") none, shapeA ("abcd") none])
      = ("abcd") := by
  have h := C1_prefix_delta_emission ("ab") ("abcd") (by decide)
  exact ⟨h.2.2.1 (by decide) (by decide), h.2.2.2 (by decide) (by decide)⟩

/-! ## Claim C4: complete events per generation -/

theorem runUnits_append (step : String → Json → String × List LlmResponseE)
    (accumulated : String) (us vs : List Json) :
    runUnits step accumulated (us ++ vs)
      = ((runUnits step (runUnits step accumulated us).1 vs).1,
         (runUnits step accumulated us).2
           ++ (runUnits step (runUnits step accumulated us).1 vs).2) := by
  induction us generalizing accumulated with
  | nil => simp [runUnits]
  | cons w rest ih => simp [runUnits, ih, List.append_assoc]

theorem countP_deltaStep {emit : String → LlmResponseE} {accumulated : String}
    {ex : Extracted} (hemit : ∀ s, (emit s).finishReason = none) :
    (deltaStep emit accumulated ex).2.countP isCompleteEvent = 0 := by
  rw [List.countP_eq_zero]
  intro e he
  rcases mem_deltaStep he with ⟨heq, _⟩
  simp [isCompleteEvent, heq, hemit]

theorem countP_processUnitSse (accumulated : String) (u : Json) :
    (processUnitSse accumulated u).2.countP isCompleteEvent
      = if truthyFinish u then 1 else 0 := by
  simp only [processUnitSse, List.countP_append]
  rw [countP_deltaStep (fun s => rfl)]
  by_cases h : truthyFinish u = true
  · rw [completeStep_of_truthy h]
    simp [isCompleteEvent, List.countP_cons, mapFinishReason_isSome_of_truthy h, h]
  · have h2 : truthyFinish u = false := by revert h; cases truthyFinish u <;> simp
    rw [completeStep_of_not_truthy h2]
    simp [h2]

theorem countP_processUnitJson (accumulated : String) (u : Json) :
    (processUnitJson accumulated u).2.countP isCompleteEvent
      = if truthyFinish u then 1 else 0 := by
  simp only [processUnitJson, List.countP_append]
  rw [countP_deltaStep (fun s => rfl)]
  by_cases h : truthyFinish u = true
  · rw [completeStep_of_truthy h]
    simp [isCompleteEvent, List.countP_cons, mapFinishReason_isSome_of_truthy h, h]
  · have h2 : truthyFinish u = false := by revert h; cases truthyFinish u <;> simp
    rw [completeStep_of_not_truthy h2]
    simp [h2]

theorem countP_runUnits {step : String → Json → String × List LlmResponseE}
    (hcount : ∀ accumulated u,
      (step accumulated u).2.countP isCompleteEvent = if truthyFinish u then 1 else 0)
    (accumulated : String) (us : List Json) :
    (runUnits step accumulated us).2.countP isCompleteEvent = us.countP truthyFinish := by
  induction us generalizing accumulated with
  | nil => simp [runUnits]
  | cons u rest ih =>
    simp [runUnits, List.countP_append, List.countP_cons, hcount, ih, Nat.add_comm]

theorem unit_split_truthy_sse {accumulated : String} {u : Json}
    (h : truthyFinish u = true) :
    ∃ d c, (processUnitSse accumulated u).2 = d ++ [c] ∧ c.finishReason.isSome = true := by
  refine ⟨(deltaStep sseDeltaEvent accumulated (extractUnit u)).2,
    { content := none, finishReason := mapFinishReason (extractUnit u).finishReasonStr,
      usage := none }, ?_, mapFinishReason_isSome_of_truthy h⟩
  simp only [processUnitSse]
  rw [completeStep_of_truthy h]

theorem unit_split_truthy_json {accumulated : String} {u : Json}
    (h : truthyFinish u = true) :
    ∃ d c, (processUnitJson accumulated u).2 = d ++ [c] ∧ c.finishReason.isSome = true := by
  refine ⟨(deltaStep jsonDeltaEvent accumulated (extractUnit u)).2,
    { content := none, finishReason := mapFinishReason (extractUnit u).finishReasonStr,
      usage := usageMeta u }, ?_, mapFinishReason_isSome_of_truthy h⟩
  simp only [processUnitJson]
  rw [completeStep_of_truthy h]

theorem runUnits_last_complete {step : String → Json → String × List LlmResponseE}
    (hsplit : ∀ accumulated u, truthyFinish u = true →
      ∃ d c, (step accumulated u).2 = d ++ [c] ∧ c.finishReason.isSome = true)
    {accumulated : String} {us : List Json} {u : Json} (hu : truthyFinish u = true) :
    ∃ c, (runUnits step accumulated (us ++ [u])).2.getLast? = some c ∧
      c.finishReason.isSome = true := by
  rw [runUnits_append]
  rcases hsplit (runUnits step accumulated us).1 u hu with ⟨d, c, hdc, hc⟩
  refine ⟨c, ?_, hc⟩
  show ((runUnits step accumulated us).2
    ++ (runUnits step (runUnits step accumulated us).1 [u]).2).getLast? = some c
  have hsingle : (runUnits step (runUnits step accumulated us).1 [u]).2
      = (step (runUnits step accumulated us).1 u).2 ++ [] := by
    simp [runUnits]
  rw [hsingle, List.append_nil, hdc, ← List.append_assoc, List.getLast?_concat]

/-- C4 (corrected): the processors emit one complete event for EVERY
finish-bearing unit, and the OpenAI streaming path always appends one
more terminal complete(STOP), so a generation can see several complete
events (see the counterexample). What does hold: in the Qwen SSE and
JSON unit processors, when exactly the final unit of the generation
carries a finish reason, exactly one complete event is emitted and it is
the last event; and the OpenAI streaming path always ends with a
complete event. -/
theorem C4_single_complete_last :
    (∀ (accumulated : String) (us : List Json) (u : Json),
      (∀ v ∈ us, truthyFinish v = false) → truthyFinish u = true →
      (processUnitsSse accumulated (us ++ [u])).countP isCompleteEvent = 1 ∧
      ∃ c, (processUnitsSse accumulated (us ++ [u])).getLast? = some c ∧
        c.finishReason.isSome = true) ∧
    (∀ (accumulated : String) (us : List Json) (u : Json),
      (∀ v ∈ us, truthyFinish v = false) → truthyFinish u = true →
      (processUnitsJson accumulated (us ++ [u])).countP isCompleteEvent = 1 ∧
      ∃ c, (processUnitsJson accumulated (us ++ [u])).getLast? = some c ∧
        c.finishReason.isSome = true) ∧
    (∀ chunks : List OpenAIChunk,
      (openaiStreamEvents chunks).getLast?
        = some { content := none, finishReason := some FinishReason.STOP, usage := none }) := by
  refine ⟨?_, ?_, ?_⟩
  · intro accumulated us u hus hu
    constructor
    · show (runUnits processUnitSse accumulated (us ++ [u])).2.countP isCompleteEvent = 1
      rw [countP_runUnits countP_processUnitSse, List.countP_append]
      rw [List.countP_eq_zero.mpr (by intro v hv; simp [hus v hv])]
      simp [List.countP_cons, hu]
    · exact runUnits_last_complete (fun a v hv => unit_split_truthy_sse hv) hu
  · intro accumulated us u hus hu
    constructor
    · show (runUnits processUnitJson accumulated (us ++ [u])).2.countP isCompleteEvent = 1
      rw [countP_runUnits countP_processUnitJson, List.countP_append]
      rw [List.countP_eq_zero.mpr (by intro v hv; simp [hus v hv])]
      simp [List.countP_cons, hu]
    · exact runUnits_last_complete (fun a v hv => unit_split_truthy_json hv) hu
  · intro chunks
    exact List.getLast?_concat _

/-- C4 counterexample: one OpenAI chunk carrying finish reason `stop`
already produces a complete event, and the streaming path appends its
unconditional terminal complete(STOP) afterwards, so this generation
emits TWO complete events — the claimed at-most-one bound fails. -/
theorem C4_counterexample :
    (openaiStreamEvents
        [{ choices := [{ deltaContent := none, finishReason := some ("stop") }] }]).countP
      isCompleteEvent = 2 := by
  rfl

/-- C4 witness: the amended statement at a concrete one-unit stream whose
only unit carries finish reason `stop`. -/
theorem C4_witness :
    (processUnitsSse ("") ([] ++ [shapeA ("hi") (some ("stop"))])).countP
        isCompleteEvent = 1 ∧
    ∃ c, (processUnitsSse ("") ([] ++ [shapeA ("hi") (some ("stop"))])).getLast? = some c ∧
      c.finishReason.isSome = true := by
  exact C4_single_complete_last.1 ("") [] (shapeA ("hi") (some ("stop")))
    (by intro v hv; exact absurd hv (List.not_mem_nil v)) (by decide)

/-! ## Claim C10: exclusive event shapes -/

theorem mem_runUnits {step : String → Json → String × List LlmResponseE}
    {P : LlmResponseE → Prop}
    (hstep : ∀ accumulated u e, e ∈ (step accumulated u).2 → P e)
    (accumulated : String) (us : List Json) :
    ∀ e ∈ (runUnits step accumulated us).2, P e := by
  induction us generalizing accumulated with
  | nil => intro e he; simp [runUnits] at he
  | cons u rest ih =>
    intro e he
    simp only [runUnits] at he
    rcases List.mem_append.mp he with h1 | h2
    · exact hstep _ _ _ h1
    · exact ih _ _ h2

theorem mem_processUnitSse_shape {accumulated : String} {u : Json} {e : LlmResponseE}
    (he : e ∈ (processUnitSse accumulated u).2) :
    (e.content = none ∨ e.finishReason = none) ∧ (∀ s, e.content = some s → s ≠ ("")) := by
  simp only [processUnitSse] at he
  rcases List.mem_append.mp he with h1 | h2
  · rcases mem_deltaStep h1 with ⟨heq, hne⟩
    subst heq
    refine ⟨Or.inr rfl, ?_⟩
    intro s hs
    have hinj : pyDrop (extractUnit u).currentText (pyLen accumulated) = s :=
      Option.some.inj hs
    rw [← hinj]
    exact hne
  · have hc := completeStep_content h2
    refine ⟨Or.inl hc, ?_⟩
    intro s hs
    rw [hc] at hs
    cases hs

theorem mem_processUnitJson_shape {accumulated : String} {u : Json} {e : LlmResponseE}
    (he : e ∈ (processUnitJson accumulated u).2) :
    e.content = none ∨ e.finishReason = none := by
  simp only [processUnitJson] at he
  rcases List.mem_append.mp he with h1 | h2
  · rcases mem_deltaStep h1 with ⟨heq, _⟩
    subst heq
    exact Or.inr rfl
  · exact Or.inl (completeStep_content h2)

theorem parseOpenaiChunk_shape (chunk : OpenAIChunk) :
    ((parseOpenaiChunk chunk).content = none ∨ (parseOpenaiChunk chunk).finishReason = none) ∧
    (∀ s, (parseOpenaiChunk chunk).content = some s → s ≠ ("")) := by
  unfold parseOpenaiChunk
  split
  · exact ⟨Or.inl rfl, fun s hs => by cases hs⟩
  case h_2 =>
    rename_i x choice rest heq
    by_cases h1 : (choice.deltaContent.getD ("") != ("")) = true
    · rw [if_pos h1]
      refine ⟨Or.inr rfl, ?_⟩
      intro s hs
      have hinj : choice.deltaContent.getD ("") = s := Option.some.inj hs
      rw [← hinj]
      exact bne_iff_ne.mp h1
    · rw [if_neg h1]
      by_cases h2 : optTruthy choice.finishReason = true
      · rw [if_pos h2]
        exact ⟨Or.inl rfl, fun s hs => by cases hs⟩
      · rw [if_neg h2]
        exact ⟨Or.inl rfl, fun s hs => by cases hs⟩

/-- C10 (corrected): no event yielded by any of the three streaming
processors ever carries both text content and a finish reason, and on
the Qwen SSE path and the OpenAI path every content-bearing event has
non-empty text. However, the two-shape dichotomy of the claim fails: the
OpenAI chunk parser can yield an event with NEITHER content nor finish
reason (see the counterexample), and the JSON-path sanitizer can produce
a content event whose text is empty. -/
theorem C10_event_shapes :
    (∀ (accumulated : String) (us : List Json), ∀ e ∈ processUnitsSse accumulated us,
      (e.content = none ∨ e.finishReason = none) ∧ (∀ s, e.content = some s → s ≠ (""))) ∧
    (∀ (accumulated : String) (us : List Json), ∀ e ∈ processUnitsJson accumulated us,
      e.content = none ∨ e.finishReason = none) ∧
    (∀ (chunks : List OpenAIChunk), ∀ e ∈ openaiStreamEvents chunks,
      (e.content = none ∨ e.finishReason = none) ∧ (∀ s, e.content = some s → s ≠ (""))) := by
  refine ⟨?_, ?_, ?_⟩
  · intro accumulated us
    exact mem_runUnits (fun a u e he => mem_processUnitSse_shape he) accumulated us
  · intro accumulated us
    exact mem_runUnits (fun a u e he => mem_processUnitJson_shape he) accumulated us
  · intro chunks e he
    rcases List.mem_append.mp he with h1 | h2
    · rcases List.mem_map.mp h1 with ⟨chunk, _, heq⟩
      rw [← heq]
      exact parseOpenaiChunk_shape chunk
    · rw [List.mem_singleton.mp h2]
      exact ⟨Or.inl rfl, fun s hs => by cases hs⟩

/-- C10 counterexample: an OpenAI chunk with no choices is parsed into an
event with neither text content nor a finish reason, so the yielded
events do not all fall into the claimed two exclusive shapes. -/
theorem C10_counterexample :
    ∃ e ∈ openaiStreamEvents [{ choices := [] }],
      e.content = none ∧ e.finishReason = none := by
  decide

/-- C10 witness: the amended exclusion at a concrete yielded delta. -/
theorem C10_witness :
    (sseDeltaEvent ("hi")).content = none ∨ (sseDeltaEvent ("hi")).finishReason = none := by
  exact (C10_event_shapes.1 ("") [shapeA ("hi") none] (sseDeltaEvent ("hi")) (by decide)).1

/-! ## Claim C3: buffer on JSON parse failure -/

/-- C3 (code bug): in the delimiter-free JSON framing, the buffer is
truncated to the text after the last `}` BEFORE the cut-out span is
parsed, so when the parse fails the partial data is dropped rather than
retried. Concretely: the single chunk `{"output":{"text":"hi"}` (an
incomplete JSON object whose span from the first `{` to the last `}`
does not parse) leaves the buffer EMPTY, not untouched; when the
closing `}` then arrives, the buffer holds only `}` and the unit is
lost — the two-chunk run yields no events. The code's own comment on the
`except json.JSONDecodeError` path says it waits for more data, which
the truncation makes impossible. -/
theorem C3_buffer_truncated_on_parse_failure :
    (jsonChunkStep parseNeverOracle (("", ("")))
        ("\x7b\"output\":\x7b\"text\":\"hi\"\x7d")).1.1 = ("") ∧
    (("\x7b\"output\":\x7b\"text\":\"hi\"\x7d") : String) ≠ ("") ∧
    processJsonStream parseNeverOracle
        [("\x7b\"output\":\x7b\"text\":\"hi\"\x7d"), ("\x7d")] (("", ("")))
      = (((("\x7d"), (""))), []) := by
  exact ⟨rfl, by decide, rfl⟩

/-! ## Claim C7: data after a `[DONE]` line -/

/-- C7 (code bug): the `break` on a `data: [DONE]` line only exits the
inner line loop over the current buffer, not the outer chunk loop, so
data arriving after the `[DONE]` line is still processed. Concretely:
after the chunk `data: [DONE]\n`, a following chunk carrying a Shape-A
unit with text `X` still yields a text-delta event `X`, although the
claim requires that no events be emitted after `[DONE]`. -/
theorem C7_events_emitted_after_done :
    processSseStream parseAfterDoneOracle
        [("data: [DONE]\n"), ("data: \x7b\"output\":\x7b\"text\":\"X\"\x7d\x7d\n")]
        ("") ("")
      = [sseDeltaEvent ("X")] := by
  rfl

/-! ## Claim C8: markdown fence sanitizer -/

theorem dropWhile_dropWhile (p : Char → Bool) (l : List Char) :
    List.dropWhile p (List.dropWhile p l) = List.dropWhile p l := by
  induction l with
  | nil => rfl
  | cons x xs ih =>
    rw [List.dropWhile_cons]
    by_cases h : p x = true
    · rw [if_pos h]; exact ih
    · rw [if_neg h, List.dropWhile_cons, if_neg h]

theorem head?_dropWhile_false {p : Char → Bool} {l : List Char} {a : Char}
    (h : (List.dropWhile p l).head? = some a) : p a = false := by
  induction l with
  | nil => cases h
  | cons x xs ih =>
    rw [List.dropWhile_cons] at h
    by_cases hp : p x = true
    · rw [if_pos hp] at h; exact ih h
    · rw [if_neg hp] at h
      have hxa : x = a := by cases h; rfl
      rw [← hxa]
      revert hp; cases p x <;> simp

theorem dropWhile_of_head_false {p : Char → Bool} {l : List Char}
    (h : ∀ a, l.head? = some a → p a = false) : List.dropWhile p l = l := by
  cases l with
  | nil => rfl
  | cons x xs => simp [List.dropWhile_cons, h x rfl]

theorem getLast?_dropWhile {p : Char → Bool} {l : List Char}
    (h : List.dropWhile p l ≠ []) :
    (List.dropWhile p l).getLast? = l.getLast? := by
  obtain ⟨t, ht⟩ := (List.dropWhile_suffix p : List.dropWhile p l <:+ l)
  conv_rhs => rw [← ht]
  rw [List.getLast?_append_of_ne_nil _ h]

theorem pyStrip_idem (s : String) : pyStrip (pyStrip s) = pyStrip s := by
  apply String.ext
  show (((pyStrip s).data.dropWhile isPySpace).reverse.dropWhile isPySpace).reverse
      = (pyStrip s).data
  have hstep1 : (pyStrip s).data.dropWhile isPySpace = (pyStrip s).data := by
    apply dropWhile_of_head_false
    intro a ha
    have hne : List.dropWhile isPySpace (s.data.dropWhile isPySpace).reverse ≠ [] := by
      intro h0
      have hempty : (pyStrip s).data = [] := by
        show (List.dropWhile isPySpace (s.data.dropWhile isPySpace).reverse).reverse = []
        rw [h0]
        rfl
      rw [hempty] at ha
      cases ha
    have h1 : (pyStrip s).data.head?
        = (List.dropWhile isPySpace (s.data.dropWhile isPySpace).reverse).getLast? :=
      List.head?_reverse _
    have h2 : (List.dropWhile isPySpace (s.data.dropWhile isPySpace).reverse).getLast?
        = ((s.data.dropWhile isPySpace).reverse).getLast? := getLast?_dropWhile hne
    have h3 : ((s.data.dropWhile isPySpace).reverse).getLast?
        = (s.data.dropWhile isPySpace).head? := List.getLast?_reverse _
    exact head?_dropWhile_false
      (show (List.dropWhile isPySpace s.data).head? = some a by
        rw [← h3, ← h2, ← h1]; exact ha)
  rw [hstep1]
  have hrev : (pyStrip s).data.reverse
      = List.dropWhile isPySpace (s.data.dropWhile isPySpace).reverse :=
    List.reverse_reverse _
  rw [hrev, dropWhile_dropWhile]
  rfl

theorem cleanLoop_keep {lines : List String}
    (h : ∀ line ∈ lines, isFenceOpenLine line = false) :
    cleanLoop lines false = lines := by
  induction lines with
  | nil => rfl
  | cons l ls ih =>
    have h1 : isFenceOpenLine l = false := h l (List.mem_cons_self l ls)
    simp [cleanLoop, h1, ih (fun x hx => h x (List.mem_cons_of_mem l hx))]

theorem splitChar_ne_nil (c : Char) (l : List Char) : splitChar c l ≠ [] := by
  cases l with
  | nil => simp [splitChar]
  | cons x xs =>
    simp only [splitChar]
    split
    · simp
    · split <;> simp

theorem intercal_splitChar (c : Char) (l : List Char) :
    intercalChar c (splitChar c l) = l := by
  induction l with
  | nil => rfl
  | cons x xs ih =>
    simp only [splitChar]
    split
    case isTrue hx =>
      subst hx
      cases h : splitChar x xs with
      | nil => exact absurd h (splitChar_ne_nil x xs)
      | cons y ys =>
        rw [h] at ih
        show [] ++ x :: intercalChar x (y :: ys) = x :: xs
        rw [List.nil_append, ih]
    case isFalse hx =>
      cases h : splitChar c xs with
      | nil => exact absurd h (splitChar_ne_nil c xs)
      | cons y ys =>
        rw [h] at ih
        show intercalChar c ((x :: y) :: ys) = x :: xs
        cases ys with
        | nil =>
          show x :: y = x :: xs
          rw [show intercalChar c [y] = y from rfl] at ih
          rw [ih]
        | cons z zs =>
          show (x :: y) ++ c :: intercalChar c (z :: zs) = x :: xs
          rw [show intercalChar c (y :: z :: zs) = y ++ c :: intercalChar c (z :: zs) from rfl]
            at ih
          rw [List.cons_append, ih]

theorem pyJoinNl_pySplitNl (s : String) : pyJoinNl (pySplitNl s) = s := by
  apply String.ext
  show intercalChar '\n' (List.map String.data (List.map String.mk (splitChar '\n' s.data)))
      = s.data
  rw [List.map_map]
  rw [show (String.data ∘ String.mk) = id from funext (fun l => rfl), List.map_id]
  exact intercal_splitChar _ _

/-- C8 (corrected): the sanitizer maps the fenced example to its
unfenced body as claimed; but an input with no fence-marker lines is
returned STRIPPED of leading and trailing whitespace, not unchanged (see
the counterexample) — it is returned unchanged exactly when it also has
no leading or trailing whitespace. -/
theorem C8_sanitizer_fence_and_no_fence :
    cleanMarkdownJson ("```json\n\x7b\"a\":1\x7d\n```") = ("\x7b\"a\":1\x7d") ∧
    (∀ text : String,
      (∀ line ∈ pySplitNl (pyStrip text), isFenceOpenLine line = false) →
      cleanMarkdownJson text = pyStrip text) := by
  constructor
  · rfl
  · intro text hlines
    by_cases h0 : text = ("")
    · subst h0; rfl
    · simp only [cleanMarkdownJson]
      rw [if_neg h0]
      rw [cleanLoop_keep hlines, pyJoinNl_pySplitNl, pyStrip_idem]
      by_cases h1 : pyStrip text = ("")
      · rw [if_pos h1, h1]
        rfl
      · rw [if_neg h1]

/-- C8 counterexample: `x\n` contains no fence markers, yet the
sanitizer returns `x`, not the original text — the trailing newline is
stripped. -/
theorem C8_counterexample :
    (∀ line ∈ pySplitNl (pyStrip ("x\n")), isFenceOpenLine line = false) ∧
    cleanMarkdownJson ("x\n") = ("x") ∧
    (("x") : String) ≠ ("x\n") := by
  exact ⟨by decide, rfl, by decide⟩

/-- C8 witness: the amended no-fence statement at a concrete input. -/
theorem C8_witness : cleanMarkdownJson ("hello") = pyStrip ("hello") := by
  exact C8_sanitizer_fence_and_no_fence.2 ("hello") (by decide)

end Education
